import Mathlib

/-!
Shallow embedding of the `transactor` ledger engine.

The Rust sources embedded here:
- `src/money.rs`: `MoneyAmount`, a fixed-point amount stored in an `i64`
  (scale 10000), with checked arithmetic in `try_change`. We model the
  scaled integer directly as `Int` together with the explicit i64 range
  `MIN ≤ x ≤ MAX`; release-mode wrapping of `-i64::MIN` is modelled by
  `negM`.
- `src/account.rs`: `Account` state (available, held, locked, the
  deposited and disputed amount maps) and the five operations
  `deposit`, `withdraw`, `dispute`, `resolve`, `chargeback`, each
  returning an `AuditRecord`. HashMaps over transaction ids are modelled
  as functions `Nat → Option Int`.
- `src/processor.rs`: the `Processor` routing each `Transaction` to the
  owning account, creating the account on first sight.
- `src/transactions.rs`: the transaction model and its constructors.
-/

namespace Transactor

/-- Lower bound of the underlying `i64` (`IntegerType` in `src/money.rs`). -/
def MIN : Int := -(2 ^ 63)

/-- Upper bound of the underlying `i64`. -/
def MAX : Int := 2 ^ 63 - 1

/-- The value fits in an `i64`. -/
def inRange (x : Int) : Prop := MIN ≤ x ∧ x ≤ MAX

instance decInRange (x : Int) : Decidable (inRange x) :=
  inferInstanceAs (Decidable (MIN ≤ x ∧ x ≤ MAX))

lemma MIN_eq : MIN = -9223372036854775808 := by decide

lemma MAX_eq : MAX = 9223372036854775807 := by decide

/-- Release-mode `i64` unary negation: `-i64::MIN` wraps back to `i64::MIN`.
This models both `MoneyAmount::neg` and the `-value` inside `try_change`. -/
def negM (x : Int) : Int := if x = MIN then MIN else -x

/-- `i64::checked_add`. -/
def checkedAdd (a b : Int) : Option Int :=
  if inRange (a + b) then some (a + b) else none

/-- `i64::checked_sub`. -/
def checkedSub (a b : Int) : Option Int :=
  if inRange (a - b) then some (a - b) else none

/-- `MoneyAmount::try_change` from `src/money.rs`:
`if value > 0 { checked_add(value) } else { checked_sub(-value) }`. -/
def tryChange (a v : Int) : Option Int :=
  if 0 < v then checkedAdd a v else checkedSub a (negM v)

/-- `AuditRecord` from `src/account.rs`. -/
inductive AuditRecord where
  | Processed
  | CanNotDepositNegative
  | CanNotWithdrawNegative
  | NotEnoughMoneyToWithdraw
  | DisputedDepositNotFound
  | NotEnoughMoneyToRelease
  | NotEnoughMoneyToChargeBack
  | MoneyOverflow
  | MoneyUnderflow
  | DisputeNotFound
  | AccountLocked
  deriving DecidableEq

/-- `HashMap<TransactionId, MoneyAmount>` modelled extensionally. -/
abbrev MapTx : Type := Nat → Option Int

def emptyM : MapTx := fun _ => none

/-- `HashMap::insert`. -/
def insertM (m : MapTx) (t : Nat) (v : Int) : MapTx :=
  fun u => if u = t then some v else m u

/-- `HashMap::remove`. -/
def removeM (m : MapTx) (t : Nat) : MapTx :=
  fun u => if u = t then none else m u

/-- `Account` from `src/account.rs`. -/
structure Account where
  available : Int
  held : Int
  locked : Bool
  deposited_amounts : MapTx
  disputed_amounts : MapTx

/-- `Account::default()`: zero balances, unlocked, empty maps. -/
def Account.default : Account := ⟨0, 0, false, emptyM, emptyM⟩

/-- `Account::deposit`. -/
def Account.deposit (a : Account) (tx : Nat) (amount : Int) : AuditRecord × Account :=
  if amount < 0 then (.CanNotDepositNegative, a)
  else
    match tryChange a.available amount with
    | none => (.MoneyOverflow, a)
    | some na =>
      (.Processed,
        { a with
          available := na,
          deposited_amounts := insertM a.deposited_amounts tx amount })

/-- `Account::withdraw`. -/
def Account.withdraw (a : Account) (amount : Int) : AuditRecord × Account :=
  if amount < 0 then (.CanNotWithdrawNegative, a)
  else if a.locked = true then (.AccountLocked, a)
  else if a.available < amount then (.NotEnoughMoneyToWithdraw, a)
  else
    match tryChange a.available (negM amount) with
    | none => (.MoneyUnderflow, a)
    | some na => (.Processed, { a with available := na })

/-- `Account::dispute`. -/
def Account.dispute (a : Account) (tx : Nat) : AuditRecord × Account :=
  match a.deposited_amounts tx with
  | none => (.DisputedDepositNotFound, a)
  | some v =>
    match tryChange a.held v with
    | none => (.MoneyOverflow, a)
    | some nh =>
      match tryChange a.available (negM v) with
      | none => (.MoneyUnderflow, a)
      | some na =>
        (.Processed,
          { a with
            held := nh,
            available := na,
            disputed_amounts := insertM a.disputed_amounts tx v,
            deposited_amounts := removeM a.deposited_amounts tx })

/-- `Account::resolve`. -/
def Account.resolve (a : Account) (tx : Nat) : AuditRecord × Account :=
  match a.disputed_amounts tx with
  | none => (.DisputeNotFound, a)
  | some v =>
    if a.held < v then (.NotEnoughMoneyToRelease, a)
    else
      match tryChange a.available v with
      | none => (.MoneyOverflow, a)
      | some na =>
        match tryChange a.held (negM v) with
        | none => (.MoneyUnderflow, a)
        | some nh =>
          (.Processed,
            { a with
              available := na,
              held := nh,
              disputed_amounts := removeM a.disputed_amounts tx,
              deposited_amounts := insertM a.deposited_amounts tx v })

/-- `Account::chargeback`. -/
def Account.chargeback (a : Account) (tx : Nat) : AuditRecord × Account :=
  match a.disputed_amounts tx with
  | none => (.DisputeNotFound, a)
  | some v =>
    if a.held < v then (.NotEnoughMoneyToChargeBack, a)
    else
      match tryChange a.held (negM v) with
      | none => (.MoneyUnderflow, a)
      | some nh =>
        (.Processed,
          { a with
            held := nh,
            disputed_amounts := removeM a.disputed_amounts tx,
            locked := true })

/-- One account-level operation, as dispatched by
`Processor::process_transaction` in `src/processor.rs`. -/
inductive Op where
  | deposit (tx : Nat) (amount : Int)
  | withdraw (amount : Int)
  | dispute (tx : Nat)
  | resolve (tx : Nat)
  | chargeback (tx : Nat)

/-- Dispatch of one operation against one account. -/
def applyOp (a : Account) : Op → AuditRecord × Account
  | .deposit tx amount => a.deposit tx amount
  | .withdraw amount => a.withdraw amount
  | .dispute tx => a.dispute tx
  | .resolve tx => a.resolve tx
  | .chargeback tx => a.chargeback tx

/-- Fold a list of operations over an account, keeping only the state. -/
def applyOps (a : Account) (l : List Op) : Account :=
  l.foldl (fun s op => (applyOp s op).2) a

/-- The amounts carried by the operation fit in an `i64`, as they do for
every Rust `MoneyAmount` argument. -/
def Op.amountsInRange : Op → Prop
  | .deposit _ amount => inRange amount
  | .withdraw amount => inRange amount
  | _ => True

instance decAmountsInRange : (op : Op) → Decidable op.amountsInRange
  | .deposit _ amount => decInRange amount
  | .withdraw amount => decInRange amount
  | .dispute _ => .isTrue trivial
  | .resolve _ => .isTrue trivial
  | .chargeback _ => .isTrue trivial

/-- Accounts reachable from `Account.default` by the five operations with
`i64`-representable amounts. -/
inductive Reachable : Account → Prop where
  | init : Reachable Account.default
  | step (a : Account) (op : Op) :
      Reachable a → op.amountsInRange → Reachable (applyOp a op).2

/-- A deposit does not reuse a transaction id that is currently disputed. -/
def Op.freshFor (a : Account) : Op → Prop
  | .deposit tx _ => a.disputed_amounts tx = none
  | _ => True

/-- Accounts reachable from `Account.default` by operation sequences in
which no deposit reuses a transaction id currently under dispute. -/
inductive ReachableD : Account → Prop where
  | init : ReachableD Account.default
  | step (a : Account) (op : Op) :
      ReachableD a → op.freshFor a → ReachableD (applyOp a op).2

/-- No transaction id is present in both amount maps. -/
def DisjointMaps (a : Account) : Prop :=
  ∀ t, a.deposited_amounts t = none ∨ a.disputed_amounts t = none

/-- Forget the lock flag, to compare the rest of the state. -/
def clearLock (a : Account) : Account := { a with locked := false }

/-- All values stored in a map are non-negative and `i64`-representable. -/
def MapNN (m : MapTx) : Prop := ∀ t v, m t = some v → 0 ≤ v ∧ v ≤ MAX

/-- State invariant maintained by every reachable account. -/
def Inv (a : Account) : Prop :=
  inRange a.available ∧ inRange a.held ∧ 0 ≤ a.held ∧
    MapNN a.deposited_amounts ∧ MapNN a.disputed_amounts

/-- `TransactionDetail` from `src/transactions.rs`. -/
inductive TransactionDetail where
  | Deposit (amount : Int)
  | Withdrawal (amount : Int)
  | Dispute (tx_id : Nat)
  | Resolve (tx_id : Nat)
  | ChargeBack (tx_id : Nat)

/-- `Transaction` from `src/transactions.rs`. -/
structure Transaction where
  id : Nat
  client_id : Nat
  detail : TransactionDetail

/-- Constructor `transactions::deposit`. -/
def Tx.deposit (client_id tx_id : Nat) (amount : Int) : Transaction :=
  ⟨tx_id, client_id, .Deposit amount⟩

/-- Constructor `transactions::withdraw`. -/
def Tx.withdraw (client_id tx_id : Nat) (amount : Int) : Transaction :=
  ⟨tx_id, client_id, .Withdrawal amount⟩

/-- Constructor `transactions::dispute` (own id fixed to 0). -/
def Tx.dispute (client_id disputed_tx_id : Nat) : Transaction :=
  ⟨0, client_id, .Dispute disputed_tx_id⟩

/-- Constructor `transactions::resolve` (own id fixed to 0). -/
def Tx.resolve (client_id disputed_tx_id : Nat) : Transaction :=
  ⟨0, client_id, .Resolve disputed_tx_id⟩

/-- Constructor `transactions::chargeback` (own id fixed to 0). -/
def Tx.chargeback (client_id disputed_tx_id : Nat) : Transaction :=
  ⟨0, client_id, .ChargeBack disputed_tx_id⟩

/-- `Processor` from `src/processor.rs`: the account map. -/
structure Processor where
  accounts : Nat → Option Account

/-- `Processor::default()`. -/
def Processor.empty : Processor := ⟨fun _ => none⟩

/-- The account-level operation a transaction dispatches to
(the `match tx.detail` in `Processor::process_transaction`). -/
def txToOp (t : Transaction) : Op :=
  match t.detail with
  | .Deposit amount => .deposit t.id amount
  | .Withdrawal amount => .withdraw amount
  | .Dispute tx_id => .dispute tx_id
  | .Resolve tx_id => .resolve tx_id
  | .ChargeBack tx_id => .chargeback tx_id

/-- `Processor::process_transaction`: look up or lazily create the client's
account, apply the operation, store the mutated account back. -/
def processTransaction (p : Processor) (t : Transaction) : AuditRecord × Processor :=
  let acc := (p.accounts t.client_id).getD Account.default
  let res := applyOp acc (txToOp t)
  (res.1, ⟨fun c => if c = t.client_id then some res.2 else p.accounts c⟩)

/-- `Processor::process`: one audit record per transaction, in order. -/
def Processor.process (p : Processor) : List Transaction → List AuditRecord × Processor
  | [] => ([], p)
  | t :: ts =>
    let r := processTransaction p t
    let rest := Processor.process r.2 ts
    (r.1 :: rest.1, rest.2)

/-! ## Arithmetic helper lemmas -/

lemma checkedAdd_some {a b r : Int} (h : checkedAdd a b = some r) :
    r = a + b ∧ inRange r := by
  unfold checkedAdd at h
  split at h
  next hin =>
    injection h with h1
    exact ⟨h1.symm, h1 ▸ hin⟩
  next => cases h

lemma checkedSub_some {a b r : Int} (h : checkedSub a b = some r) :
    r = a - b ∧ inRange r := by
  unfold checkedSub at h
  split at h
  next hin =>
    injection h with h1
    exact ⟨h1.symm, h1 ▸ hin⟩
  next => cases h

lemma tryChange_some {a v r : Int} (h : tryChange a v = some r) : inRange r := by
  unfold tryChange at h
  split at h
  · exact (checkedAdd_some h).2
  · exact (checkedSub_some h).2

lemma negM_nonneg {v : Int} (hv : 0 ≤ v) : negM v = -v := by
  unfold negM
  rw [if_neg]
  have := MIN_eq
  omega

lemma tryChange_nonneg_eq (a : Int) {v : Int} (hv : 0 ≤ v) :
    tryChange a v = checkedAdd a v := by
  unfold tryChange
  by_cases h : 0 < v
  · rw [if_pos h]
  · have hv0 : v = 0 := by omega
    subst hv0
    rw [if_neg h, negM_nonneg le_rfl]
    unfold checkedSub checkedAdd
    norm_num

lemma tryChange_negM_eq (a : Int) {v : Int} (hv : 0 ≤ v) (hM : v ≤ MAX) :
    tryChange a (negM v) = checkedSub a v := by
  rw [negM_nonneg hv]
  unfold tryChange
  rw [if_neg (by omega : ¬ 0 < -v)]
  have h2 : negM (-v) = v := by
    unfold negM
    rw [if_neg]
    · omega
    · have := MIN_eq
      have := MAX_eq
      omega
  rw [h2]

/-! ## Map helper lemmas -/

lemma MapNN_insert {m : MapTx} {t : Nat} {v : Int}
    (hm : MapNN m) (hv : 0 ≤ v ∧ v ≤ MAX) : MapNN (insertM m t v) := by
  intro u w h
  unfold insertM at h
  split at h
  · injection h with h1
    exact h1 ▸ hv
  · exact hm u w h

lemma MapNN_remove {m : MapTx} {t : Nat} (hm : MapNN m) : MapNN (removeM m t) := by
  intro u w h
  unfold removeM at h
  split at h
  · cases h
  · exact hm u w h

lemma MapNN_empty : MapNN emptyM := by
  intro u w h
  cases h

/-! ## The reachability invariant -/

lemma inv_preserved (a : Account) (op : Op) (ha : Inv a) (hop : op.amountsInRange) :
    Inv (applyOp a op).2 := by
  obtain ⟨hav, hhd, hh0, hdep, hdisp⟩ := ha
  cases op with
  | deposit tx amount =>
    have hamt : inRange amount := hop
    show Inv (Account.deposit a tx amount).2
    unfold Account.deposit
    split
    next => exact ⟨hav, hhd, hh0, hdep, hdisp⟩
    next hneg =>
      cases htc : tryChange a.available amount with
      | none => exact ⟨hav, hhd, hh0, hdep, hdisp⟩
      | some na =>
        exact ⟨tryChange_some htc, hhd, hh0,
          MapNN_insert hdep ⟨by omega, hamt.2⟩, hdisp⟩
  | withdraw amount =>
    show Inv (Account.withdraw a amount).2
    unfold Account.withdraw
    split
    next => exact ⟨hav, hhd, hh0, hdep, hdisp⟩
    next =>
      split
      next => exact ⟨hav, hhd, hh0, hdep, hdisp⟩
      next =>
        split
        next => exact ⟨hav, hhd, hh0, hdep, hdisp⟩
        next =>
          cases htc : tryChange a.available (negM amount) with
          | none => exact ⟨hav, hhd, hh0, hdep, hdisp⟩
          | some na => exact ⟨tryChange_some htc, hhd, hh0, hdep, hdisp⟩
  | dispute tx =>
    show Inv (Account.dispute a tx).2
    unfold Account.dispute
    split
    next => exact ⟨hav, hhd, hh0, hdep, hdisp⟩
    next v hd =>
      obtain ⟨hv0, hvM⟩ := hdep tx v hd
      split
      next => exact ⟨hav, hhd, hh0, hdep, hdisp⟩
      next nh hth =>
        split
        next => exact ⟨hav, hhd, hh0, hdep, hdisp⟩
        next na hta =>
          rw [tryChange_nonneg_eq a.held hv0] at hth
          have hnh := checkedAdd_some hth
          exact ⟨tryChange_some hta, hnh.2, by show 0 ≤ nh; omega,
            MapNN_remove hdep, MapNN_insert hdisp ⟨hv0, hvM⟩⟩
  | resolve tx =>
    show Inv (Account.resolve a tx).2
    unfold Account.resolve
    split
    next => exact ⟨hav, hhd, hh0, hdep, hdisp⟩
    next v hd =>
      obtain ⟨hv0, hvM⟩ := hdisp tx v hd
      split
      next => exact ⟨hav, hhd, hh0, hdep, hdisp⟩
      next hge =>
        split
        next => exact ⟨hav, hhd, hh0, hdep, hdisp⟩
        next na hta =>
          split
          next => exact ⟨hav, hhd, hh0, hdep, hdisp⟩
          next nh hth =>
            rw [tryChange_negM_eq a.held hv0 hvM] at hth
            have hnh := checkedSub_some hth
            exact ⟨tryChange_some hta, hnh.2, by show 0 ≤ nh; omega,
              MapNN_insert hdep ⟨hv0, hvM⟩, MapNN_remove hdisp⟩
  | chargeback tx =>
    show Inv (Account.chargeback a tx).2
    unfold Account.chargeback
    split
    next => exact ⟨hav, hhd, hh0, hdep, hdisp⟩
    next v hd =>
      obtain ⟨hv0, hvM⟩ := hdisp tx v hd
      split
      next => exact ⟨hav, hhd, hh0, hdep, hdisp⟩
      next hge =>
        split
        next => exact ⟨hav, hhd, hh0, hdep, hdisp⟩
        next nh hth =>
          rw [tryChange_negM_eq a.held hv0 hvM] at hth
          have hnh := checkedSub_some hth
          exact ⟨hav, hnh.2, by show 0 ≤ nh; omega, hdep, MapNN_remove hdisp⟩

lemma inv_default : Inv Account.default :=
  ⟨by decide, by decide, by decide, MapNN_empty, MapNN_empty⟩

lemma reachable_inv {a : Account} (h : Reachable a) : Inv a := by
  induction h with
  | init => exact inv_default
  | step a op hr hop ih => exact inv_preserved a op ih hop

/-! ## Failure leaves the state unchanged (per operation) -/

lemma deposit_fail (a : Account) (tx : Nat) (amount : Int) :
    (Account.deposit a tx amount).1 ≠ .Processed → (Account.deposit a tx amount).2 = a := by
  unfold Account.deposit
  split
  · intro _; rfl
  · split
    · intro _; rfl
    · intro h; exact absurd rfl h

lemma withdraw_fail (a : Account) (amount : Int) :
    (Account.withdraw a amount).1 ≠ .Processed → (Account.withdraw a amount).2 = a := by
  unfold Account.withdraw
  split
  · intro _; rfl
  · split
    · intro _; rfl
    · split
      · intro _; rfl
      · split
        · intro _; rfl
        · intro h; exact absurd rfl h

lemma dispute_fail (a : Account) (tx : Nat) :
    (Account.dispute a tx).1 ≠ .Processed → (Account.dispute a tx).2 = a := by
  unfold Account.dispute
  split
  · intro _; rfl
  · split
    · intro _; rfl
    · split
      · intro _; rfl
      · intro h; exact absurd rfl h

lemma resolve_fail (a : Account) (tx : Nat) :
    (Account.resolve a tx).1 ≠ .Processed → (Account.resolve a tx).2 = a := by
  unfold Account.resolve
  split
  · intro _; rfl
  · split
    · intro _; rfl
    · split
      · intro _; rfl
      · split
        · intro _; rfl
        · intro h; exact absurd rfl h

lemma chargeback_fail (a : Account) (tx : Nat) :
    (Account.chargeback a tx).1 ≠ .Processed → (Account.chargeback a tx).2 = a := by
  unfold Account.chargeback
  split
  · intro _; rfl
  · split
    · intro _; rfl
    · split
      · intro _; rfl
      · intro h; exact absurd rfl h

/-! ## The lock flag is never reset -/

lemma locked_step (a : Account) (op : Op) (h : a.locked = true) :
    ((applyOp a op).2).locked = true := by
  cases op with
  | deposit tx amount =>
    show ((Account.deposit a tx amount).2).locked = true
    unfold Account.deposit
    repeat' split
    all_goals exact h
  | withdraw amount =>
    show ((Account.withdraw a amount).2).locked = true
    unfold Account.withdraw
    repeat' split
    all_goals exact h
  | dispute tx =>
    show ((Account.dispute a tx).2).locked = true
    unfold Account.dispute
    repeat' split
    all_goals exact h
  | resolve tx =>
    show ((Account.resolve a tx).2).locked = true
    unfold Account.resolve
    repeat' split
    all_goals exact h
  | chargeback tx =>
    show ((Account.chargeback a tx).2).locked = true
    unfold Account.chargeback
    repeat' split
    all_goals first | exact h | rfl

/-! ## Lock independence of the non-withdrawal operations -/

lemma deposit_lock_indep (a : Account) (b : Bool) (tx : Nat) (amount : Int) :
    (Account.deposit { a with locked := b } tx amount).1 =
      (Account.deposit a tx amount).1 ∧
    clearLock (Account.deposit { a with locked := b } tx amount).2 =
      clearLock (Account.deposit a tx amount).2 := by
  obtain ⟨av, hd, lk, dep, disp⟩ := a
  by_cases h : amount < 0
  · simp [Account.deposit, if_pos h, clearLock]
  · cases htc : tryChange av amount with
    | none => simp [Account.deposit, if_neg h, htc, clearLock]
    | some na => simp [Account.deposit, if_neg h, htc, clearLock]

lemma dispute_lock_indep (a : Account) (b : Bool) (tx : Nat) :
    (Account.dispute { a with locked := b } tx).1 = (Account.dispute a tx).1 ∧
    clearLock (Account.dispute { a with locked := b } tx).2 =
      clearLock (Account.dispute a tx).2 := by
  obtain ⟨av, hd, lk, dep, disp⟩ := a
  cases hdep : dep tx with
  | none => simp [Account.dispute, hdep, clearLock]
  | some v =>
    cases h1 : tryChange hd v with
    | none => simp [Account.dispute, hdep, h1, clearLock]
    | some nh =>
      cases h2 : tryChange av (negM v) with
      | none => simp [Account.dispute, hdep, h1, h2, clearLock]
      | some na => simp [Account.dispute, hdep, h1, h2, clearLock]

lemma resolve_lock_indep (a : Account) (b : Bool) (tx : Nat) :
    (Account.resolve { a with locked := b } tx).1 = (Account.resolve a tx).1 ∧
    clearLock (Account.resolve { a with locked := b } tx).2 =
      clearLock (Account.resolve a tx).2 := by
  obtain ⟨av, hd, lk, dep, disp⟩ := a
  cases hdisp : disp tx with
  | none => simp [Account.resolve, hdisp, clearLock]
  | some v =>
    by_cases hlt : hd < v
    · simp [Account.resolve, hdisp, if_pos hlt, clearLock]
    · cases h1 : tryChange av v with
      | none => simp [Account.resolve, hdisp, if_neg hlt, h1, clearLock]
      | some na =>
        cases h2 : tryChange hd (negM v) with
        | none => simp [Account.resolve, hdisp, if_neg hlt, h1, h2, clearLock]
        | some nh => simp [Account.resolve, hdisp, if_neg hlt, h1, h2, clearLock]

lemma chargeback_lock_indep (a : Account) (b : Bool) (tx : Nat) :
    (Account.chargeback { a with locked := b } tx).1 = (Account.chargeback a tx).1 ∧
    clearLock (Account.chargeback { a with locked := b } tx).2 =
      clearLock (Account.chargeback a tx).2 := by
  obtain ⟨av, hd, lk, dep, disp⟩ := a
  cases hdisp : disp tx with
  | none => simp [Account.chargeback, hdisp, clearLock]
  | some v =>
    by_cases hlt : hd < v
    · simp [Account.chargeback, hdisp, if_pos hlt, clearLock]
    · cases h1 : tryChange hd (negM v) with
      | none => simp [Account.chargeback, hdisp, if_neg hlt, h1, clearLock]
      | some nh => simp [Account.chargeback, hdisp, if_neg hlt, h1, clearLock]

/-! ## Pointwise map lemmas -/

lemma insertM_self (m : MapTx) (t : Nat) (v : Int) : insertM m t v t = some v := by
  simp [insertM]

lemma insertM_ne {t u : Nat} (m : MapTx) (v : Int) (h : u ≠ t) :
    insertM m t v u = m u := by
  simp [insertM, h]

lemma removeM_self (m : MapTx) (t : Nat) : removeM m t t = none := by
  simp [removeM]

lemma removeM_ne {t u : Nat} (m : MapTx) (h : u ≠ t) : removeM m t u = m u := by
  simp [removeM, h]

/-! ## Claim theorems -/

/-- Account state obtained from the default account by deposit(tx=100, 5),
dispute(100), then a deposit reusing the disputed id: deposit(tx=100, 7). -/
def c1state : Account :=
  (applyOp (applyOp (applyOp Account.default (Op.deposit 100 5)).2
    (Op.dispute 100)).2 (Op.deposit 100 7)).2

/-- C1 (counterexample): the state `c1state` is reachable from the default
account by deposit, dispute, deposit operations, yet transaction id 100 is
present in `deposited_amounts` and in `disputed_amounts` at the same time,
because `Account::deposit` inserts into `deposited_amounts` without checking
`disputed_amounts`. -/
theorem claim_C1_counterexample :
    Reachable c1state ∧ c1state.deposited_amounts 100 = some 7 ∧
      c1state.disputed_amounts 100 = some 5 := by
  refine ⟨?_, by decide, by decide⟩
  exact Reachable.step _ _
    (Reachable.step _ _ (Reachable.step _ _ Reachable.init (by decide))
      (by decide)) (by decide)

/-- C1 (amended): for every account reachable from the initial (default)
state by a sequence of deposit, withdraw, dispute, resolve and chargeback
operations in which no deposit reuses a transaction id currently present in
`disputed_amounts`, no transaction id is in both `deposited_amounts` and
`disputed_amounts`. -/
theorem claim_C1_amended (a : Account) (h : ReachableD a) : DisjointMaps a := by
  induction h with
  | init => intro t; exact Or.inl rfl
  | step a op hr hfresh ih =>
    cases op with
    | deposit tx amount =>
      have hfr : a.disputed_amounts tx = none := hfresh
      show DisjointMaps (Account.deposit a tx amount).2
      unfold Account.deposit
      split
      next => exact ih
      next =>
        split
        next => exact ih
        next na htc =>
          intro t
          by_cases ht : t = tx
          · subst ht
            exact Or.inr hfr
          · rcases ih t with h1 | h1
            · exact Or.inl (by
                show insertM a.deposited_amounts tx amount t = none
                rw [insertM_ne a.deposited_amounts amount ht]; exact h1)
            · exact Or.inr h1
    | withdraw amount =>
      show DisjointMaps (Account.withdraw a amount).2
      unfold Account.withdraw
      repeat' split
      all_goals exact ih
    | dispute tx =>
      show DisjointMaps (Account.dispute a tx).2
      unfold Account.dispute
      split
      next => exact ih
      next v hd =>
        split
        next => exact ih
        next nh hth =>
          split
          next => exact ih
          next na hta =>
            intro t
            by_cases ht : t = tx
            · subst ht
              exact Or.inl (removeM_self a.deposited_amounts t)
            · rcases ih t with h1 | h1
              · exact Or.inl (by
                  show removeM a.deposited_amounts tx t = none
                  rw [removeM_ne a.deposited_amounts ht]; exact h1)
              · exact Or.inr (by
                  show insertM a.disputed_amounts tx v t = none
                  rw [insertM_ne a.disputed_amounts v ht]; exact h1)
    | resolve tx =>
      show DisjointMaps (Account.resolve a tx).2
      unfold Account.resolve
      split
      next => exact ih
      next v hd =>
        split
        next => exact ih
        next =>
          split
          next => exact ih
          next na hta =>
            split
            next => exact ih
            next nh hth =>
              intro t
              by_cases ht : t = tx
              · subst ht
                exact Or.inr (removeM_self a.disputed_amounts t)
              · rcases ih t with h1 | h1
                · exact Or.inl (by
                    show insertM a.deposited_amounts tx v t = none
                    rw [insertM_ne a.deposited_amounts v ht]; exact h1)
                · exact Or.inr (by
                    show removeM a.disputed_amounts tx t = none
                    rw [removeM_ne a.disputed_amounts ht]; exact h1)
    | chargeback tx =>
      show DisjointMaps (Account.chargeback a tx).2
      unfold Account.chargeback
      split
      next => exact ih
      next v hd =>
        split
        next => exact ih
        next =>
          split
          next => exact ih
          next nh hth =>
            intro t
            by_cases ht : t = tx
            · subst ht
              exact Or.inr (removeM_self a.disputed_amounts t)
            · rcases ih t with h1 | h1
              · exact Or.inl h1
              · exact Or.inr (by
                  show removeM a.disputed_amounts tx t = none
                  rw [removeM_ne a.disputed_amounts ht]; exact h1)

/-- Witness for C1 (amended), at the initial account. -/
theorem claim_C1_amended_w :
    Account.default.deposited_amounts 0 = none ∨
      Account.default.disputed_amounts 0 = none :=
  claim_C1_amended Account.default ReachableD.init 0

/-- C2: whenever an operation returns an audit outcome other than
`Processed`, the account state (all five fields) is unchanged. -/
theorem claim_C2 (a : Account) (op : Op) (h : (applyOp a op).1 ≠ .Processed) :
    (applyOp a op).2 = a := by
  cases op with
  | deposit tx amount => exact deposit_fail a tx amount h
  | withdraw amount => exact withdraw_fail a amount h
  | dispute tx => exact dispute_fail a tx h
  | resolve tx => exact resolve_fail a tx h
  | chargeback tx => exact chargeback_fail a tx h

/-- Witness for C2: a negative deposit is refused and leaves the default
account unchanged. -/
theorem claim_C2_w :
    (applyOp Account.default (Op.deposit 5 (-3))).1 ≠ AuditRecord.Processed ∧
      (applyOp Account.default (Op.deposit 5 (-3))).2 = Account.default :=
  ⟨by decide, claim_C2 Account.default (Op.deposit 5 (-3)) (by decide)⟩

/-- C3 (code bug): `try_change` does not implement checked addition at
`value = i64::MIN`. With release-mode negation semantics,
`MoneyAmount(-1).try_change(i64::MIN)` returns `Some(i64::MAX)` although the
exact sum `-1 + i64::MIN` is below the representable range, so the claimed
contract (exact sum or `None`) is violated. -/
theorem claim_C3_bug_eval :
    tryChange (-1) MIN = some MAX ∧ ¬ inRange (-1 + MIN) :=
  ⟨by decide, by decide⟩

lemma locked_steps (ops : List Op) :
    ∀ a : Account, a.locked = true → (applyOps a ops).locked = true := by
  induction ops with
  | nil => intro a h; exact h
  | cons op ops ih => intro a h; exact ih _ (locked_step a op h)

/-- C4: once an account is locked it stays locked after every subsequent
sequence of operations (no operation resets the flag), and every withdrawal
of a non-negative amount is refused with `AccountLocked` and changes
nothing, no matter how large `available` is. -/
theorem claim_C4 (a : Account) (h : a.locked = true) :
    (∀ ops : List Op, (applyOps a ops).locked = true) ∧
      (∀ amount : Int, 0 ≤ amount →
        Account.withdraw a amount = (.AccountLocked, a)) := by
  constructor
  · intro ops
    exact locked_steps ops a h
  · intro amount hamt
    unfold Account.withdraw
    rw [if_neg (by omega : ¬ amount < 0), if_pos h]

/-- A locked account with positive available funds. -/
def c4acc : Account := ⟨5, 0, true, emptyM, emptyM⟩

/-- Witness for C4 on a concrete locked account. -/
theorem claim_C4_w :
    (applyOps c4acc [Op.deposit 1 2]).locked = true ∧
      Account.withdraw c4acc 3 = (.AccountLocked, c4acc) :=
  ⟨(claim_C4 c4acc rfl).1 [Op.deposit 1 2], (claim_C4 c4acc rfl).2 3 (by decide)⟩

/-- C5: deposit, dispute, resolve and chargeback return the same outcome and
make the same change to every field other than `locked` whether the account
is locked or not, while withdraw does depend on the lock flag (two accounts
differing only in `locked` give different withdraw outcomes). -/
theorem claim_C5 :
    (∀ (a : Account) (b : Bool) (tx : Nat) (amount : Int),
      (Account.deposit { a with locked := b } tx amount).1 =
          (Account.deposit a tx amount).1 ∧
        clearLock (Account.deposit { a with locked := b } tx amount).2 =
          clearLock (Account.deposit a tx amount).2) ∧
    (∀ (a : Account) (b : Bool) (tx : Nat),
      (Account.dispute { a with locked := b } tx).1 = (Account.dispute a tx).1 ∧
        clearLock (Account.dispute { a with locked := b } tx).2 =
          clearLock (Account.dispute a tx).2) ∧
    (∀ (a : Account) (b : Bool) (tx : Nat),
      (Account.resolve { a with locked := b } tx).1 = (Account.resolve a tx).1 ∧
        clearLock (Account.resolve { a with locked := b } tx).2 =
          clearLock (Account.resolve a tx).2) ∧
    (∀ (a : Account) (b : Bool) (tx : Nat),
      (Account.chargeback { a with locked := b } tx).1 =
          (Account.chargeback a tx).1 ∧
        clearLock (Account.chargeback { a with locked := b } tx).2 =
          clearLock (Account.chargeback a tx).2) ∧
    (Account.withdraw ⟨10, 0, true, emptyM, emptyM⟩ 1).1 ≠
      (Account.withdraw ⟨10, 0, false, emptyM, emptyM⟩ 1).1 :=
  ⟨deposit_lock_indep, dispute_lock_indep, resolve_lock_indep,
    chargeback_lock_indep, by decide⟩

/-- The transactions of the C7 scenario, in scaled units (1 = 0.0001):
deposit(client 1, tx 100, 600.0), withdraw(client 1, tx 101, 500.0),
dispute(client 1, tx 100). -/
def c7txs : List Transaction :=
  [Tx.deposit 1 100 6000000, Tx.withdraw 1 101 5000000, Tx.dispute 1 100]

/-- C7: processing the three C7 transactions from the empty processor yields
three `Processed` outcomes and leaves client 1 with available = -500.0000
and held = 600.0000 (scaled: -5000000 and 6000000): the dispute succeeds
although the deposited funds were partly withdrawn, driving available
negative. -/
theorem claim_C7 :
    (Processor.empty.process c7txs).1 = [.Processed, .Processed, .Processed] ∧
      ((Processor.empty.process c7txs).2.accounts 1).map
          (fun a => (a.available, a.held)) = some (-5000000, 6000000) := by
  constructor
  · decide
  · decide

/-- C8: withdraw never returns `MoneyUnderflow`. The checked subtraction is
only reached after `amount ≥ 0` and `available ≥ amount` have passed, and
then `available - amount` is always representable. -/
theorem claim_C8 (a : Account) (amount : Int) (hav : inRange a.available)
    (hamt : inRange amount) :
    (Account.withdraw a amount).1 ≠ .MoneyUnderflow := by
  have hav2 : MIN ≤ a.available ∧ a.available ≤ MAX := hav
  have hamt2 : MIN ≤ amount ∧ amount ≤ MAX := hamt
  have hM := MIN_eq
  unfold Account.withdraw
  split
  next => exact fun hx => AuditRecord.noConfusion hx
  next hneg =>
    split
    next => exact fun hx => AuditRecord.noConfusion hx
    next =>
      split
      next => exact fun hx => AuditRecord.noConfusion hx
      next hge =>
        rw [tryChange_negM_eq a.available (by omega : (0:Int) ≤ amount) hamt2.2]
        have hin : inRange (a.available - amount) := ⟨by omega, by omega⟩
        unfold checkedSub
        rw [if_pos hin]
        exact fun hx => AuditRecord.noConfusion hx

/-- Witness for C8 at the default account and a zero withdrawal. -/
theorem claim_C8_w :
    inRange Account.default.available ∧ inRange (0 : Int) ∧
      (Account.withdraw Account.default 0).1 ≠ AuditRecord.MoneyUnderflow :=
  ⟨by decide, by decide, claim_C8 Account.default 0 (by decide) (by decide)⟩

/-- C9: every account reachable from the initial (default) state by any
sequence of operations has `held ≥ 0` after every operation. -/
theorem claim_C9 (a : Account) (h : Reachable a) : 0 ≤ a.held :=
  (reachable_inv h).2.2.1

/-- Witness for C9 at the initial account. -/
theorem claim_C9_w : (0 : Int) ≤ Account.default.held :=
  claim_C9 Account.default Reachable.init

/-- Account with a recorded deposit of 5 scaled units for tx 100 and zero
balances, used to instantiate the amended C6 statement concretely. -/
def c6acc : Account := ⟨0, 0, false, insertM emptyM 100 5, emptyM⟩

/-- Account with a negative held balance, used to refute C6 as stated: such
a state is expressible in the account data type even though it is not
reachable. -/
def c6bad : Account := ⟨0, -5, false, insertM emptyM 100 3, emptyM⟩

/-- C6 (counterexample): on the state `c6bad` (held = -5, deposit 3 recorded
for tx 100), dispute(100) succeeds and none of the checked adjustments
fails, yet resolve(100) returns `NotEnoughMoneyToRelease`, tx 100 is not
returned to `deposited_amounts`, and held is not restored: the claim as
stated fails for account states with negative held. -/
theorem claim_C6_counterexample :
    (Account.dispute c6bad 100).1 = AuditRecord.Processed ∧
      (Account.resolve (Account.dispute c6bad 100).2 100).1 =
        AuditRecord.NotEnoughMoneyToRelease ∧
      (Account.resolve (Account.dispute c6bad 100).2 100).2.deposited_amounts
          100 = none ∧
      (Account.resolve (Account.dispute c6bad 100).2 100).2.held ≠
        c6bad.held :=
  ⟨by decide, by decide, by decide, by decide⟩

/-- C6 (amended): for every account state whose available and held are
`i64`-representable, whose held is non-negative, and in which tx is mapped
to a non-negative representable amount v in `deposited_amounts`, if the two
checked adjustments of dispute succeed then dispute(tx) followed by
resolve(tx) restores the original available and held and returns tx to
`deposited_amounts`, so a further dispute(tx) succeeds; whereas
dispute(tx) twice in a row yields `DisputedDepositNotFound` the second
time. Every reachable account satisfies the added side conditions. -/
theorem claim_C6_amended (a : Account) (tx : Nat) (v nh av1 : Int)
    (hav : inRange a.available) (hhd : inRange a.held) (hh0 : 0 ≤ a.held)
    (hdep : a.deposited_amounts tx = some v) (hv0 : 0 ≤ v) (hvM : v ≤ MAX)
    (h1 : tryChange a.held v = some nh)
    (h2 : tryChange a.available (negM v) = some av1) :
    (Account.dispute a tx).1 = .Processed ∧
      (Account.resolve (Account.dispute a tx).2 tx).1 = .Processed ∧
      (Account.resolve (Account.dispute a tx).2 tx).2.available =
        a.available ∧
      (Account.resolve (Account.dispute a tx).2 tx).2.held = a.held ∧
      (Account.resolve (Account.dispute a tx).2 tx).2.deposited_amounts tx =
        some v ∧
      (Account.dispute
          (Account.resolve (Account.dispute a tx).2 tx).2 tx).1 =
        .Processed ∧
      (Account.dispute (Account.dispute a tx).2 tx).1 =
        .DisputedDepositNotFound := by
  have h1' := h1
  rw [tryChange_nonneg_eq a.held hv0] at h1'
  have hnh := checkedAdd_some h1'
  have h2' := h2
  rw [tryChange_negM_eq a.available hv0 hvM] at h2'
  have hval := checkedSub_some h2'
  have hav2 : MIN ≤ a.available ∧ a.available ≤ MAX := hav
  have hhd2 : MIN ≤ a.held ∧ a.held ≤ MAX := hhd
  have hdisp_eq : Account.dispute a tx = (.Processed,
      { a with
        held := nh,
        available := av1,
        disputed_amounts := insertM a.disputed_amounts tx v,
        deposited_amounts := removeM a.deposited_amounts tx }) := by
    simp only [Account.dispute, hdep, h1, h2]
  have hTC1 : tryChange av1 v = some a.available := by
    rw [tryChange_nonneg_eq av1 hv0]
    have he : av1 + v = a.available := by omega
    unfold checkedAdd
    rw [he, if_pos hav]
  have hTC2 : tryChange nh (negM v) = some a.held := by
    rw [tryChange_negM_eq nh hv0 hvM]
    have he : nh - v = a.held := by omega
    unfold checkedSub
    rw [he, if_pos hhd]
  have hgu : ¬ nh < v := by omega
  have hres_eq : Account.resolve (Account.dispute a tx).2 tx = (.Processed,
      { a with
        available := a.available,
        held := a.held,
        disputed_amounts := removeM (insertM a.disputed_amounts tx v) tx,
        deposited_amounts := insertM (removeM a.deposited_amounts tx) tx v }) := by
    rw [hdisp_eq]
    simp only [Account.resolve, insertM_self, if_neg hgu, hTC1, hTC2]
  refine ⟨by rw [hdisp_eq], by rw [hres_eq], by rw [hres_eq],
    by rw [hres_eq], ?_, ?_, ?_⟩
  · rw [hres_eq]
    exact insertM_self (removeM a.deposited_amounts tx) tx v
  · rw [hres_eq]
    simp only [Account.dispute, insertM_self, h1, h2]
  · rw [hdisp_eq]
    simp only [Account.dispute, removeM_self]

/-- Witness for C6 (amended) on the concrete account `c6acc`. -/
theorem claim_C6_w :
    (Account.dispute c6acc 100).1 = AuditRecord.Processed ∧
      (Account.resolve (Account.dispute c6acc 100).2 100).1 =
        AuditRecord.Processed ∧
      (Account.resolve (Account.dispute c6acc 100).2 100).2.available =
        c6acc.available ∧
      (Account.resolve (Account.dispute c6acc 100).2 100).2.held =
        c6acc.held ∧
      (Account.resolve (Account.dispute c6acc 100).2 100).2.deposited_amounts
          100 = some 5 ∧
      (Account.dispute
          (Account.resolve (Account.dispute c6acc 100).2 100).2 100).1 =
        AuditRecord.Processed ∧
      (Account.dispute (Account.dispute c6acc 100).2 100).1 =
        AuditRecord.DisputedDepositNotFound :=
  claim_C6_amended c6acc 100 5 5 (-5) (by decide) (by decide) (by decide)
    (by decide) (by decide) (by decide) (by decide) (by decide)

/-- Processor with an existing account for client 5. -/
def c10proc : Processor := ⟨fun c => if c = 5 then some Account.default else none⟩

/-- C10: after `process_transaction` handles any transaction for client c,
the account map contains an entry for c even when the operation fails; a
dispute for a never-seen client returns `DisputedDepositNotFound` yet
creates a fresh default (zero balances, unlocked) account; and entries,
once present, are never removed by later transactions. -/
theorem claim_C10 :
    (∀ (p : Processor) (t : Transaction),
      (((processTransaction p t).2).accounts t.client_id).isSome = true) ∧
      (processTransaction Processor.empty (Tx.dispute 7 3)).1 =
        AuditRecord.DisputedDepositNotFound ∧
      (processTransaction Processor.empty (Tx.dispute 7 3)).2.accounts 7 =
        some Account.default ∧
      (∀ (p : Processor) (t : Transaction) (c : Nat),
        (p.accounts c).isSome = true →
          (((processTransaction p t).2).accounts c).isSome = true) := by
  refine ⟨?_, by decide, rfl, ?_⟩
  · intro p t
    simp [processTransaction]
  · intro p t c h
    by_cases hc : c = t.client_id
    · simp [processTransaction, hc]
    · simp only [processTransaction]
      simp only [if_neg hc]
      exact h

/-- Witness for C10: an account already present (client 5) survives the
processing of an unrelated deposit. -/
theorem claim_C10_w :
    ((processTransaction c10proc (Tx.deposit 1 2 3)).2.accounts 5).isSome =
      true :=
  claim_C10.2.2.2 c10proc (Tx.deposit 1 2 3) 5 (by decide)

end Transactor
